import Mathlib

/-!
Shallow embedding of `src/table-navigator.js` (class `TableNavigator`).

A row element is modelled by the state the controller reads and writes on it:
its `dataset.marked` flag, whether the marked CSS classes are present, and
whether the selected CSS classes are present.  The `dataset.index` of a row is
its position in the row list of the controller, so it is kept implicit: operations
receive positions instead of element references, and `rows[i]` for an `Int`
index `i` is modelled by `jsIndex` (JavaScript returns `undefined` for a
negative or out-of-range index).  A JavaScript operation that can throw a
`TypeError` (only `markRange`, which dereferences `endRow.dataset` without an
undefined guard) returns `Option`, with `none` standing for the thrown
exception; the throw happens before any mutation, so no partial state is
needed.  Clicks are modelled by the index of the managed row the click
resolved to (`none` when `closest` found no row).
-/

namespace TableNav

/-- The per-row state the controller touches: the `dataset.marked` flag, the
presence of the marked CSS classes, and the presence of the selected CSS
classes.  Class-list updates are idempotent, so each class set is one Bool. -/
structure Row where
  marked : Bool
  markedVis : Bool
  selectedVis : Bool
deriving DecidableEq

/-- Controller state: the row list plus the two scalar indices
`selectedIndex` and `lastMarkedIndex` (JavaScript numbers, here `Int`:
`selectedIndex` can become `-1` on an empty table, `lastMarkedIndex` uses
`-1` as the no-anchor value). -/
structure NavState where
  rows : List Row
  selectedIndex : Int
  lastMarkedIndex : Int
deriving DecidableEq

/-- `this.rows[i]` for an `Int` index: `undefined` (`none`) when `i` is
negative or at least the length. -/
def jsIndex (rows : List Row) (i : Int) : Option Row :=
  if 0 ≤ i then rows.get? i.toNat else none

/-- Map a function of the position over a list, starting at position `k`.
Models a `forEach((row, index) => ...)` / positional update loop. -/
def mapPos (f : Nat → Row → Row) : Nat → List Row → List Row
  | _, [] => []
  | k, r :: rs => f k r :: mapPos f (k + 1) rs

/-- Update the row at position `i` only. -/
def updAt (rows : List Row) (i : Nat) (f : Row → Row) : List Row :=
  mapPos (fun p r => if p = i then f r else r) 0 rows

/-- `row.dataset.marked = true` plus `addCls(row, markedCls)`. -/
def markRow (r : Row) : Row :=
  { r with marked := true, markedVis := true }

/-- `row.dataset.marked = false` plus `removeCls(row, markedCls)`. -/
def unmarkRow (r : Row) : Row :=
  { r with marked := false, markedVis := false }

/-- The row mutation in `toggleMark`: with `isMarked` the old marked flag,
set `dataset.marked = !isMarked` and `classList.toggle(cls, !isMarked)` for
each marked class. -/
def flipRow (r : Row) : Row :=
  { r with marked := !r.marked, markedVis := !r.marked }

/-- `removeCls(row, selectedCls)`. -/
def clearSel (r : Row) : Row :=
  { r with selectedVis := false }

/-- `clearAllMarks()`: every row gets a false `dataset.marked` and the
marked classes removed.  `lastMarkedIndex` is not touched. -/
def clearAllMarks (rows : List Row) : List Row :=
  rows.map unmarkRow

/-- `updateNavigation()`: remove the selected classes from every row, then,
if `this.rows[this.selectedIndex]` exists, add them to that row (the
`scrollIntoView` call has no modelled effect). -/
def updateNavigation (s : NavState) : NavState :=
  let cleared := s.rows.map clearSel
  match jsIndex cleared s.selectedIndex with
  | none => { s with rows := cleared }
  | some _ =>
      { s with
        rows := updAt cleared s.selectedIndex.toNat
          (fun r => { r with selectedVis := true }) }

/-- `toggleMark(row)` applied to `this.rows[i]`: early return if the row is
`undefined`; otherwise flip its marked flag and classes and set
`lastMarkedIndex` to `-1` when the row was marked, else to the
`dataset.index` of the row (its position). -/
def toggleMark (s : NavState) (i : Int) : NavState :=
  match jsIndex s.rows i with
  | none => s
  | some r =>
      { s with
        rows := updAt s.rows i.toNat flipRow,
        lastMarkedIndex := if r.marked then -1 else (i.toNat : Int) }

/-- `markSingle(row)` with `row = this.rows[this.selectedIndex]`:
`clearAllMarks()` then `toggleMark(row)`. -/
def markSingle (s : NavState) : NavState :=
  toggleMark { s with rows := clearAllMarks s.rows } s.selectedIndex

/-- JavaScript `Array.slice` index resolution: a negative bound counts from
the end (clamped at 0), a nonnegative bound is clamped at the length. -/
def relIndex (len : Nat) (i : Int) : Nat :=
  if i < 0 then ((len : Int) + i).toNat else min i.toNat len

/-- The marking loop of `markRange`: `this.rows.slice(start, end + 1)` with
`start = min(a, b)` and `end = max(a, b)`, each row of the slice getting
`dataset.marked = true` and the marked classes.  The slice shares its
elements with `rows`, so the loop is an in-place update of the positions
the slice covers. -/
def rangeMarkRows (rows : List Row) (a b : Int) : List Row :=
  mapPos
    (fun p r =>
      if relIndex rows.length (min a b) ≤ p ∧
          p < relIndex rows.length (max a b + 1)
      then markRow r else r)
    0 rows

/-- `markRange(endRow)` with `endRow = this.rows[this.selectedIndex]`:
if no anchor, degrade to `toggleMark(endRow)`.  Otherwise `endRow.dataset`
is dereferenced, which throws (`none`) when `endRow` is `undefined`; with a
row present, its `dataset.index` is its position `selectedIndex.toNat`, the
slice between the anchor and that index is marked, and the anchor becomes
that index. -/
def markRange (s : NavState) : Option NavState :=
  if s.lastMarkedIndex = -1 then some (toggleMark s s.selectedIndex)
  else
    match jsIndex s.rows s.selectedIndex with
    | none => none
    | some _ =>
        some
          { s with
            rows := rangeMarkRows s.rows s.lastMarkedIndex
              (s.selectedIndex.toNat : Int),
            lastMarkedIndex := (s.selectedIndex.toNat : Int) }

/-- `handleMarking(shiftKey, ctrlKey)`: shift selects range mode, else ctrl
selects toggle mode, else single mode, all on the currently selected row. -/
def handleMarking (s : NavState) (shiftKey ctrlKey : Bool) : Option NavState :=
  if shiftKey then markRange s
  else if ctrlKey then some (toggleMark s s.selectedIndex)
  else some (markSingle s)

/-- The two navigation keys. -/
inductive NavKey
  | up
  | down
deriving DecidableEq

/-- `handleNavigation(key)`: ArrowUp gives `max(0, selectedIndex - 1)`,
ArrowDown gives `min(rows.length - 1, selectedIndex + 1)`, then
`updateNavigation()`. -/
def handleNavigation (s : NavState) (key : NavKey) : NavState :=
  let newIndex : Int :=
    match key with
    | .up => max 0 (s.selectedIndex - 1)
    | .down => min ((s.rows.length : Int) - 1) (s.selectedIndex + 1)
  updateNavigation { s with selectedIndex := newIndex }

/-- Keys distinguished by `handleKeyDown`. -/
inductive KBKey
  | arrowUp
  | arrowDown
  | space
  | other
deriving DecidableEq

/-- `handleKeyDown(e)`: arrow keys navigate; space calls
`handleMarking(e.shiftKey, e.ctrlKey)` — note that `e.metaKey` is read
nowhere on this path. -/
def handleKeyDown (s : NavState) (key : KBKey)
    (shiftKey ctrlKey metaKey : Bool) : Option NavState :=
  match key with
  | .arrowUp => some (handleNavigation s .up)
  | .arrowDown => some (handleNavigation s .down)
  | .space => handleMarking s shiftKey ctrlKey
  | .other => some s

/-- `handleClick(e)`: `target` is the position of the managed row the click
resolved to (`none` when `closest` found no row, an early return).  The
`dataset.index` of the clicked row becomes `selectedIndex`, then
`updateNavigation()` and `handleMarking(e.shiftKey, e.ctrlKey || e.metaKey)`. -/
def handleClick (s : NavState) (target : Option Nat)
    (shiftKey ctrlKey metaKey : Bool) : Option NavState :=
  match target with
  | none => some s
  | some i =>
      handleMarking
        (updateNavigation { s with selectedIndex := (i : Int) })
        shiftKey (ctrlKey || metaKey)

/-- Construction on a table with `n` body rows: `initialize()` resets every
row to unmarked with no classes, sets `selectedIndex = 0` and
`lastMarkedIndex = -1`, and runs `updateNavigation()`. -/
def initNav (n : Nat) : NavState :=
  updateNavigation
    { rows := List.replicate n ⟨false, false, false⟩,
      selectedIndex := 0,
      lastMarkedIndex := -1 }

/-- The explicit mark mode of the spec, computed from the modifier state the way
section 4.1 describes it. -/
inductive MarkMode
  | single
  | toggle
  | range
deriving DecidableEq

/-- Mode choice as `handleMarking` branches: shift gives range, else ctrl
gives toggle, else single. -/
def modeOf (shiftKey ctrlKey : Bool) : MarkMode :=
  if shiftKey then .range else if ctrlKey then .toggle else .single

/-- Dispatch of a mark mode onto the selected row. -/
def applyMark (s : NavState) : MarkMode → Option NavState
  | .range => markRange s
  | .toggle => some (toggleMark s s.selectedIndex)
  | .single => some (markSingle s)

/-- One externally triggered event: a keyboard event or a click.  A click
carries the position of the managed row it resolved to, which by
construction of `dataset.index` is below the row count. -/
inductive Step : NavState → NavState → Prop
  | key : ∀ (s : NavState) (k : KBKey) (sh c m : Bool) (s2 : NavState),
      handleKeyDown s k sh c m = some s2 → Step s s2
  | clickMiss : ∀ (s : NavState) (sh c m : Bool) (s2 : NavState),
      handleClick s none sh c m = some s2 → Step s s2
  | clickRow : ∀ (s : NavState) (i : Nat) (sh c m : Bool) (s2 : NavState),
      i < s.rows.length → handleClick s (some i) sh c m = some s2 → Step s s2

/-- States reachable from construction on a table with `n` body rows. -/
inductive Reachable (n : Nat) : NavState → Prop
  | init : Reachable n (initNav n)
  | step : ∀ {s s2 : NavState}, Reachable n s → Step s s2 → Reachable n s2

/-- A sequence of navigate calls, for the clamping property. -/
def navigateSeq (s : NavState) (ks : List NavKey) : NavState :=
  ks.foldl handleNavigation s

/-- Controller state on a zero-row table: no rows, no anchor, and the
selected index is `0` or the `-1` that `handleNavigation` down computes. -/
def EmptyInv (s : NavState) : Prop :=
  s.rows = [] ∧ s.lastMarkedIndex = -1 ∧
    (s.selectedIndex = 0 ∨ s.selectedIndex = -1)

/-- The selected classes sit on exactly the row at `selectedIndex` (on no
row at all when that index is out of range). -/
def SelVisOK (s : NavState) : Prop :=
  ∀ p : Nat, p < s.rows.length →
    ((s.rows.get? p).map Row.selectedVis = some true ↔
      (p : Int) = s.selectedIndex)

/-- On a nonempty table, `selectedIndex` is a valid row index. -/
def SelIdxOK (s : NavState) : Prop :=
  0 < s.rows.length → 0 ≤ s.selectedIndex ∧ s.selectedIndex < s.rows.length

theorem mapPos_length (f : Nat → Row → Row) (k : Nat) (l : List Row) :
    (mapPos f k l).length = l.length := by
  induction l generalizing k with
  | nil => rfl
  | cons r rs ih => simp [mapPos, ih]

theorem mapPos_get? (f : Nat → Row → Row) (l : List Row) (k p : Nat) :
    (mapPos f k l).get? p = (l.get? p).map (f (k + p)) := by
  induction l generalizing k p with
  | nil => simp [mapPos]
  | cons r rs ih =>
      cases p with
      | zero => simp [mapPos]
      | succ q =>
          simp only [mapPos, List.get?_cons_succ, ih]
          have h : k + 1 + q = k + (q + 1) := by omega
          rw [h]

theorem updAt_length (rows : List Row) (i : Nat) (f : Row → Row) :
    (updAt rows i f).length = rows.length :=
  mapPos_length _ _ _

theorem updAt_get? (rows : List Row) (i : Nat) (f : Row → Row) (p : Nat) :
    (updAt rows i f).get? p =
      (rows.get? p).map (fun r => if p = i then f r else r) := by
  unfold updAt
  rw [mapPos_get?]
  simp

theorem jsIndex_pos (rows : List Row) (i : Int) (h0 : 0 ≤ i) :
    jsIndex rows i = rows.get? i.toNat := by
  unfold jsIndex
  rw [if_pos h0]

theorem jsIndex_neg (rows : List Row) (i : Int) (h0 : i < 0) :
    jsIndex rows i = none := by
  unfold jsIndex
  rw [if_neg (by omega)]

theorem jsIndex_eq_some (rows : List Row) (i : Int) (r : Row) :
    jsIndex rows i = some r ↔ 0 ≤ i ∧ rows.get? i.toNat = some r := by
  unfold jsIndex
  split
  · next h0 => exact ⟨fun h => ⟨h0, h⟩, fun h => h.2⟩
  · next h0 => simp [h0]

theorem jsIndex_out (rows : List Row) (i : Int)
    (h : i < 0 ∨ (rows.length : Int) ≤ i) : jsIndex rows i = none := by
  rcases h with h | h
  · exact jsIndex_neg rows i h
  · rw [jsIndex_pos rows i (by omega)]
    exact List.get?_eq_none.mpr (by omega)

theorem jsIndex_valid (rows : List Row) (i : Int) (h0 : 0 ≤ i)
    (h1 : i < rows.length) :
    ∃ r : Row, jsIndex rows i = some r ∧ rows.get? i.toNat = some r := by
  rw [jsIndex_pos rows i h0]
  rcases List.get?_eq_get (l := rows) (n := i.toNat) (by omega) with h
  exact ⟨rows.get ⟨i.toNat, by omega⟩, h, h⟩

theorem updAt_frame (rows : List Row) (i : Nat) (f : Row → Row)
    (g : Row → Bool) (hf : ∀ r, g (f r) = g r) (p : Nat) :
    ((updAt rows i f).get? p).map g = (rows.get? p).map g := by
  rw [updAt_get?]
  cases rows.get? p with
  | none => rfl
  | some r =>
      show some (g (if p = i then f r else r)) = some (g r)
      split <;> simp [hf]

theorem clearAllMarks_get? (rows : List Row) (p : Nat) :
    (clearAllMarks rows).get? p = (rows.get? p).map unmarkRow := by
  unfold clearAllMarks
  rw [List.get?_map]

theorem clearAllMarks_length (rows : List Row) :
    (clearAllMarks rows).length = rows.length := by
  unfold clearAllMarks
  rw [List.length_map]

theorem updateNavigation_selectedIndex (s : NavState) :
    (updateNavigation s).selectedIndex = s.selectedIndex := by
  simp only [updateNavigation]
  split <;> rfl

theorem updateNavigation_lastMarkedIndex (s : NavState) :
    (updateNavigation s).lastMarkedIndex = s.lastMarkedIndex := by
  simp only [updateNavigation]
  split <;> rfl

theorem updateNavigation_length (s : NavState) :
    (updateNavigation s).rows.length = s.rows.length := by
  simp only [updateNavigation]
  split
  · show (List.map clearSel s.rows).length = s.rows.length
    rw [List.length_map]
  · show (updAt (List.map clearSel s.rows) s.selectedIndex.toNat
      (fun r => { r with selectedVis := true })).length = s.rows.length
    rw [updAt_length, List.length_map]

theorem updateNavigation_marked (s : NavState) (p : Nat) :
    ((updateNavigation s).rows.get? p).map Row.marked =
      (s.rows.get? p).map Row.marked := by
  simp only [updateNavigation]
  split
  · show ((List.map clearSel s.rows).get? p).map Row.marked =
      (s.rows.get? p).map Row.marked
    rw [List.get?_map]
    cases s.rows.get? p <;> rfl
  · show ((updAt (List.map clearSel s.rows) s.selectedIndex.toNat
      (fun r => { r with selectedVis := true })).get? p).map Row.marked =
      (s.rows.get? p).map Row.marked
    rw [updAt_frame (List.map clearSel s.rows) s.selectedIndex.toNat
      (fun r => { r with selectedVis := true }) Row.marked (fun r => rfl) p]
    rw [List.get?_map]
    cases s.rows.get? p <;> rfl

theorem updateNavigation_markedVis (s : NavState) (p : Nat) :
    ((updateNavigation s).rows.get? p).map Row.markedVis =
      (s.rows.get? p).map Row.markedVis := by
  simp only [updateNavigation]
  split
  · show ((List.map clearSel s.rows).get? p).map Row.markedVis =
      (s.rows.get? p).map Row.markedVis
    rw [List.get?_map]
    cases s.rows.get? p <;> rfl
  · show ((updAt (List.map clearSel s.rows) s.selectedIndex.toNat
      (fun r => { r with selectedVis := true })).get? p).map Row.markedVis =
      (s.rows.get? p).map Row.markedVis
    rw [updAt_frame (List.map clearSel s.rows) s.selectedIndex.toNat
      (fun r => { r with selectedVis := true }) Row.markedVis (fun r => rfl) p]
    rw [List.get?_map]
    cases s.rows.get? p <;> rfl

theorem updateNavigation_selVis (s : NavState) (p : Nat)
    (hp : p < s.rows.length) :
    ((updateNavigation s).rows.get? p).map Row.selectedVis =
      some (decide ((p : Int) = s.selectedIndex)) := by
  have hget := List.get?_eq_get (l := s.rows) (n := p) hp
  simp only [updateNavigation]
  split
  · next hnone =>
      have hrange : s.selectedIndex < 0 ∨
          ((s.rows.map clearSel).length : Int) ≤ s.selectedIndex := by
        by_contra hc
        push_neg at hc
        obtain ⟨r, hr, -⟩ :=
          jsIndex_valid (s.rows.map clearSel) s.selectedIndex
            (by omega) (by omega)
        rw [hnone] at hr
        exact Option.noConfusion hr
      have hne : ¬((p : Int) = s.selectedIndex) := by
        rw [List.length_map] at hrange
        omega
      show ((List.map clearSel s.rows).get? p).map Row.selectedVis =
        some (decide ((p : Int) = s.selectedIndex))
      rw [List.get?_map, hget]
      simp [clearSel, hne]
  · next r0 hsome =>
      obtain ⟨h0, -⟩ := (jsIndex_eq_some _ _ _).mp hsome
      show ((updAt (List.map clearSel s.rows) s.selectedIndex.toNat
        (fun r => { r with selectedVis := true })).get? p).map Row.selectedVis =
        some (decide ((p : Int) = s.selectedIndex))
      rw [updAt_get?, List.get?_map, hget]
      have hiff : (p = s.selectedIndex.toNat) ↔
          ((p : Int) = s.selectedIndex) := by omega
      by_cases he : (p : Int) = s.selectedIndex
      · simp only [hiff.mpr he, if_pos rfl]
        simp [he]
        exact h0
      · have hne2 : ¬(p = s.selectedIndex.toNat) := fun h => he (hiff.mp h)
        simp [clearSel, hne2, he]

theorem toggleMark_invalid (s : NavState) (i : Int)
    (h : i < 0 ∨ (s.rows.length : Int) ≤ i) : toggleMark s i = s := by
  unfold toggleMark
  rw [jsIndex_out s.rows i h]

theorem toggleMark_valid (s : NavState) (i : Int) (r : Row)
    (h0 : 0 ≤ i) (hr : s.rows.get? i.toNat = some r) :
    toggleMark s i =
      { s with
        rows := updAt s.rows i.toNat flipRow,
        lastMarkedIndex := if r.marked then -1 else (i.toNat : Int) } := by
  unfold toggleMark
  rw [jsIndex_pos s.rows i h0, hr]

theorem toggleMark_selectedIndex (s : NavState) (i : Int) :
    (toggleMark s i).selectedIndex = s.selectedIndex := by
  unfold toggleMark
  split <;> rfl

theorem toggleMark_length (s : NavState) (i : Int) :
    (toggleMark s i).rows.length = s.rows.length := by
  unfold toggleMark
  split
  · rfl
  · show (updAt s.rows i.toNat flipRow).length = s.rows.length
    rw [updAt_length]

theorem toggleMark_selVis (s : NavState) (i : Int) (p : Nat) :
    ((toggleMark s i).rows.get? p).map Row.selectedVis =
      (s.rows.get? p).map Row.selectedVis := by
  unfold toggleMark
  split
  · rfl
  · show ((updAt s.rows i.toNat flipRow).get? p).map Row.selectedVis =
      (s.rows.get? p).map Row.selectedVis
    exact updAt_frame s.rows i.toNat flipRow Row.selectedVis (fun r => rfl) p

theorem markSingle_selectedIndex (s : NavState) :
    (markSingle s).selectedIndex = s.selectedIndex := by
  unfold markSingle
  rw [toggleMark_selectedIndex]

theorem markSingle_length (s : NavState) :
    (markSingle s).rows.length = s.rows.length := by
  unfold markSingle
  rw [toggleMark_length]
  show (clearAllMarks s.rows).length = s.rows.length
  rw [clearAllMarks_length]

theorem markSingle_selVis (s : NavState) (p : Nat) :
    ((markSingle s).rows.get? p).map Row.selectedVis =
      (s.rows.get? p).map Row.selectedVis := by
  unfold markSingle
  rw [toggleMark_selVis]
  show ((clearAllMarks s.rows).get? p).map Row.selectedVis =
    (s.rows.get? p).map Row.selectedVis
  rw [clearAllMarks_get?]
  cases s.rows.get? p <;> rfl

theorem rangeMarkRows_length (rows : List Row) (a b : Int) :
    (rangeMarkRows rows a b).length = rows.length :=
  mapPos_length _ _ _

theorem rangeMarkRows_selVis (rows : List Row) (a b : Int) (p : Nat) :
    ((rangeMarkRows rows a b).get? p).map Row.selectedVis =
      (rows.get? p).map Row.selectedVis := by
  unfold rangeMarkRows
  rw [mapPos_get?]
  cases rows.get? p with
  | none => rfl
  | some r =>
      show some (Row.selectedVis
          (if relIndex rows.length (min a b) ≤ 0 + p ∧
              0 + p < relIndex rows.length (max a b + 1)
           then markRow r else r)) =
        some (Row.selectedVis r)
      split <;> rfl

theorem rangeMarkRows_get? (rows : List Row) (a b : Int) (p : Nat)
    (ha : 0 ≤ a) (hb : 0 ≤ b) (hblen : b < rows.length) :
    (rangeMarkRows rows a b).get? p =
      (rows.get? p).map
        (fun r =>
          if min a b ≤ (p : Int) ∧ (p : Int) ≤ max a b
          then markRow r else r) := by
  unfold rangeMarkRows
  rw [mapPos_get?]
  cases hq : rows.get? p with
  | none => rfl
  | some r =>
      have hp : p < rows.length := by
        rcases List.get?_eq_some.mp hq with ⟨hlt, -⟩
        exact hlt
      show some (if relIndex rows.length (min a b) ≤ 0 + p ∧
          0 + p < relIndex rows.length (max a b + 1) then markRow r else r) =
        some (if min a b ≤ (p : Int) ∧ (p : Int) ≤ max a b
          then markRow r else r)
      have hcond : (relIndex rows.length (min a b) ≤ 0 + p ∧
          0 + p < relIndex rows.length (max a b + 1)) ↔
          (min a b ≤ (p : Int) ∧ (p : Int) ≤ max a b) := by
        unfold relIndex
        rw [if_neg (by omega), if_neg (by omega)]
        omega
      rw [if_congr hcond rfl rfl]

theorem markRange_noAnchor (s : NavState) (h : s.lastMarkedIndex = -1) :
    markRange s = some (toggleMark s s.selectedIndex) := by
  unfold markRange
  rw [if_pos h]

theorem markRange_throw (s : NavState) (hanchor : s.lastMarkedIndex ≠ -1)
    (h : s.selectedIndex < 0 ∨ (s.rows.length : Int) ≤ s.selectedIndex) :
    markRange s = none := by
  unfold markRange
  rw [if_neg hanchor, jsIndex_out s.rows s.selectedIndex h]

theorem markRange_valid (s : NavState) (hanchor : s.lastMarkedIndex ≠ -1)
    (h0 : 0 ≤ s.selectedIndex) (h1 : s.selectedIndex < s.rows.length) :
    markRange s = some
      { s with
        rows := rangeMarkRows s.rows s.lastMarkedIndex
          (s.selectedIndex.toNat : Int),
        lastMarkedIndex := (s.selectedIndex.toNat : Int) } := by
  unfold markRange
  rw [if_neg hanchor]
  obtain ⟨r, hr, -⟩ := jsIndex_valid s.rows s.selectedIndex h0 h1
  rw [hr]

theorem markRange_frame (s s2 : NavState) (h : markRange s = some s2) :
    s2.selectedIndex = s.selectedIndex ∧ s2.rows.length = s.rows.length ∧
    ∀ p : Nat, (s2.rows.get? p).map Row.selectedVis =
      (s.rows.get? p).map Row.selectedVis := by
  unfold markRange at h
  split at h
  · have h2 := Option.some.inj h
    subst h2
    exact ⟨toggleMark_selectedIndex _ _, toggleMark_length _ _,
      fun p => toggleMark_selVis _ _ p⟩
  · split at h
    · exact Option.noConfusion h
    · have h2 := Option.some.inj h
      subst h2
      exact ⟨rfl, rangeMarkRows_length _ _ _,
        fun p => rangeMarkRows_selVis _ _ _ p⟩

theorem handleMarking_frame (s : NavState) (sh c : Bool) (s2 : NavState)
    (h : handleMarking s sh c = some s2) :
    s2.selectedIndex = s.selectedIndex ∧ s2.rows.length = s.rows.length ∧
    ∀ p : Nat, (s2.rows.get? p).map Row.selectedVis =
      (s.rows.get? p).map Row.selectedVis := by
  unfold handleMarking at h
  split at h
  · exact markRange_frame s s2 h
  · split at h
    · have h2 := Option.some.inj h
      subst h2
      exact ⟨toggleMark_selectedIndex _ _, toggleMark_length _ _,
        fun p => toggleMark_selVis _ _ p⟩
    · have h2 := Option.some.inj h
      subst h2
      exact ⟨markSingle_selectedIndex _, markSingle_length _,
        fun p => markSingle_selVis _ p⟩

theorem selOK_of_frame (s s2 : NavState)
    (hsel : s2.selectedIndex = s.selectedIndex)
    (hlen : s2.rows.length = s.rows.length)
    (hvis : ∀ p : Nat, (s2.rows.get? p).map Row.selectedVis =
      (s.rows.get? p).map Row.selectedVis)
    (h : SelVisOK s ∧ SelIdxOK s) : SelVisOK s2 ∧ SelIdxOK s2 := by
  constructor
  · intro p hp
    rw [hvis p, hsel]
    exact h.1 p (by omega)
  · intro hpos
    rw [hsel, hlen]
    exact h.2 (by omega)

theorem updateNavigation_selVisOK (s : NavState) :
    SelVisOK (updateNavigation s) := by
  intro p hp
  have hp2 : p < s.rows.length := by
    rw [updateNavigation_length] at hp
    exact hp
  rw [updateNavigation_selVis s p hp2, updateNavigation_selectedIndex]
  simp

theorem handleNavigation_length (s : NavState) (k : NavKey) :
    (handleNavigation s k).rows.length = s.rows.length := by
  cases k <;> exact updateNavigation_length _

theorem handleNavigation_up_selectedIndex (s : NavState) :
    (handleNavigation s .up).selectedIndex = max 0 (s.selectedIndex - 1) :=
  updateNavigation_selectedIndex _

theorem handleNavigation_down_selectedIndex (s : NavState) :
    (handleNavigation s .down).selectedIndex =
      min ((s.rows.length : Int) - 1) (s.selectedIndex + 1) :=
  updateNavigation_selectedIndex _

theorem handleNavigation_lastMarkedIndex (s : NavState) (k : NavKey) :
    (handleNavigation s k).lastMarkedIndex = s.lastMarkedIndex := by
  cases k <;> exact updateNavigation_lastMarkedIndex _

theorem handleNavigation_ok (s : NavState) (k : NavKey) (h : SelIdxOK s) :
    SelVisOK (handleNavigation s k) ∧ SelIdxOK (handleNavigation s k) := by
  cases k with
  | up =>
      refine ⟨updateNavigation_selVisOK _, fun hpos => ?_⟩
      rw [handleNavigation_length] at hpos
      rw [handleNavigation_up_selectedIndex, handleNavigation_length]
      have hb := h hpos
      omega
  | down =>
      refine ⟨updateNavigation_selVisOK _, fun hpos => ?_⟩
      rw [handleNavigation_length] at hpos
      rw [handleNavigation_down_selectedIndex, handleNavigation_length]
      have hb := h hpos
      omega

theorem initNav_selectedIndex (n : Nat) : (initNav n).selectedIndex = 0 :=
  updateNavigation_selectedIndex _

theorem initNav_lastMarkedIndex (n : Nat) : (initNav n).lastMarkedIndex = -1 :=
  updateNavigation_lastMarkedIndex _

theorem initNav_length (n : Nat) : (initNav n).rows.length = n := by
  unfold initNav
  rw [updateNavigation_length]
  exact List.length_replicate _ _

theorem initNav_ok (n : Nat) : SelVisOK (initNav n) ∧ SelIdxOK (initNav n) := by
  refine ⟨updateNavigation_selVisOK _, fun hpos => ?_⟩
  rw [initNav_length] at hpos
  rw [initNav_selectedIndex, initNav_length]
  omega

theorem handleMarking_ok (s : NavState) (sh c : Bool) (s2 : NavState)
    (h : handleMarking s sh c = some s2) (hok : SelVisOK s ∧ SelIdxOK s) :
    SelVisOK s2 ∧ SelIdxOK s2 := by
  obtain ⟨h1, h2, h3⟩ := handleMarking_frame s sh c s2 h
  exact selOK_of_frame s s2 h1 h2 h3 hok

theorem step_ok (s s2 : NavState) (hstep : Step s s2)
    (hok : SelVisOK s ∧ SelIdxOK s) : SelVisOK s2 ∧ SelIdxOK s2 := by
  cases hstep with
  | key k sh c m s2 h =>
      cases k with
      | arrowUp =>
          unfold handleKeyDown at h
          have h2 := Option.some.inj h
          subst h2
          exact handleNavigation_ok s .up hok.2
      | arrowDown =>
          unfold handleKeyDown at h
          have h2 := Option.some.inj h
          subst h2
          exact handleNavigation_ok s .down hok.2
      | space =>
          unfold handleKeyDown at h
          exact handleMarking_ok s sh c s2 h hok
      | other =>
          unfold handleKeyDown at h
          have h2 := Option.some.inj h
          subst h2
          exact hok
  | clickMiss sh c m s2 h =>
      unfold handleClick at h
      have h2 := Option.some.inj h
      subst h2
      exact hok
  | clickRow i sh c m s2 hi h =>
      unfold handleClick at h
      refine handleMarking_ok _ sh (c || m) s2 h ⟨updateNavigation_selVisOK _, ?_⟩
      intro hpos
      rw [updateNavigation_selectedIndex, updateNavigation_length]
      show (0 : Int) ≤ (i : Int) ∧ (i : Int) < (s.rows.length : Int)
      omega

theorem reachable_ok (n : Nat) (s : NavState) (h : Reachable n s) :
    SelVisOK s ∧ SelIdxOK s := by
  induction h with
  | init => exact initNav_ok n
  | step hr hstep ih => exact step_ok _ _ hstep ih

theorem toggleMark_empty (s : NavState) (hrows : s.rows = []) :
    toggleMark s s.selectedIndex = s := by
  apply toggleMark_invalid
  rw [hrows]
  simp
  omega

theorem handleMarking_empty (s : NavState) (hrows : s.rows = [])
    (hanchor : s.lastMarkedIndex = -1) (sh c : Bool) :
    handleMarking s sh c = some s := by
  have htoggle := toggleMark_empty s hrows
  unfold handleMarking
  split
  · rw [markRange_noAnchor s hanchor, htoggle]
  · split
    · rw [htoggle]
    · have hclear : clearAllMarks s.rows = s.rows := by
        rw [hrows]
        rfl
      unfold markSingle
      rw [hclear]
      show some (toggleMark s s.selectedIndex) = some s
      rw [htoggle]

theorem handleNavigation_empty (s : NavState) (hrows : s.rows = [])
    (hanchor : s.lastMarkedIndex = -1)
    (hsel : s.selectedIndex = 0 ∨ s.selectedIndex = -1) (k : NavKey) :
    (handleNavigation s k).rows = [] ∧
    (handleNavigation s k).lastMarkedIndex = -1 ∧
    (handleNavigation s k).selectedIndex =
      (match k with | NavKey.up => 0 | NavKey.down => -1) := by
  have hlen : (handleNavigation s k).rows.length = 0 := by
    rw [handleNavigation_length, hrows]
    rfl
  refine ⟨List.length_eq_zero.mp hlen, ?_, ?_⟩
  · rw [handleNavigation_lastMarkedIndex, hanchor]
  · cases k with
    | up =>
        show (handleNavigation s NavKey.up).selectedIndex = 0
        rw [handleNavigation_up_selectedIndex]
        omega
    | down =>
        show (handleNavigation s NavKey.down).selectedIndex = -1
        rw [handleNavigation_down_selectedIndex, hrows]
        show min ((List.length ([] : List Row) : Int) - 1) (s.selectedIndex + 1) = -1
        simp
        omega

theorem handleMarking_eq_applyMark (s : NavState) (sh c : Bool) :
    handleMarking s sh c = applyMark s (modeOf sh c) := by
  cases sh <;> cases c <;> rfl

theorem navigateSeq_length (s : NavState) (ks : List NavKey) :
    (navigateSeq s ks).rows.length = s.rows.length := by
  induction ks generalizing s with
  | nil => rfl
  | cons k ks ih =>
      show (navigateSeq (handleNavigation s k) ks).rows.length = s.rows.length
      rw [ih, handleNavigation_length]

theorem navigateSeq_bounds (s : NavState) (ks : List NavKey)
    (hpos : 0 < s.rows.length)
    (h : 0 ≤ s.selectedIndex ∧ s.selectedIndex < s.rows.length) :
    0 ≤ (navigateSeq s ks).selectedIndex ∧
      (navigateSeq s ks).selectedIndex < (navigateSeq s ks).rows.length := by
  induction ks generalizing s with
  | nil => exact h
  | cons k ks ih =>
      show 0 ≤ (navigateSeq (handleNavigation s k) ks).selectedIndex ∧ _
      apply ih
      · rw [handleNavigation_length]
        exact hpos
      · exact (handleNavigation_ok s k (fun _ => h)).2
          (by rw [handleNavigation_length]; exact hpos)

/-- C5: from the initial state of a table with `n > 0` rows, an arbitrary
sequence of navigate calls keeps `selectedIndex` inside `[0, n-1]`; each up
step computes the clamped decrement `max(0, selectedIndex - 1)` and each
down step the clamped increment `min(rowCount - 1, selectedIndex + 1)`, so
there is no wraparound. -/
theorem C5_selection_clamp (n : Nat) (hn : 0 < n) (ks : List NavKey)
    (s : NavState) :
    (0 ≤ (navigateSeq (initNav n) ks).selectedIndex ∧
      (navigateSeq (initNav n) ks).selectedIndex < (n : Int)) ∧
    (handleNavigation s .up).selectedIndex = max 0 (s.selectedIndex - 1) ∧
    (handleNavigation s .down).selectedIndex =
      min ((s.rows.length : Int) - 1) (s.selectedIndex + 1) := by
  refine ⟨?_, handleNavigation_up_selectedIndex s,
    handleNavigation_down_selectedIndex s⟩
  have hb := navigateSeq_bounds (initNav n) ks
    (by rw [initNav_length]; exact hn)
    (by rw [initNav_selectedIndex, initNav_length]
        exact ⟨le_refl 0, by exact_mod_cast hn⟩)
  rwa [navigateSeq_length, initNav_length] at hb

theorem C5_witness :
    (0 ≤ (navigateSeq (initNav 2) [NavKey.down, NavKey.down]).selectedIndex ∧
      (navigateSeq (initNav 2) [NavKey.down, NavKey.down]).selectedIndex <
        (2 : Int)) ∧
    (handleNavigation ⟨[⟨false, false, true⟩], 0, -1⟩ .up).selectedIndex =
      max 0 ((0 : Int) - 1) ∧
    (handleNavigation ⟨[⟨false, false, true⟩], 0, -1⟩ .down).selectedIndex =
      min (((1 : Nat) : Int) - 1) ((0 : Int) + 1) :=
  C5_selection_clamp 2 (by decide) [NavKey.down, NavKey.down]
    ⟨[⟨false, false, true⟩], 0, -1⟩

/-- C6: after `mark(single)` with the selected index valid, the row at
`selectedIndex` has marked flag and marked visual state true and every
other row has both false, regardless of any prior marked state. -/
theorem C6_single_exclusive (s : NavState)
    (h0 : 0 ≤ s.selectedIndex) (h1 : s.selectedIndex < s.rows.length) :
    ∀ p : Nat, p < s.rows.length →
      ((markSingle s).rows.get? p).map Row.marked =
        some (decide ((p : Int) = s.selectedIndex)) ∧
      ((markSingle s).rows.get? p).map Row.markedVis =
        some (decide ((p : Int) = s.selectedIndex)) := by
  intro p hp
  obtain ⟨q, hq⟩ : ∃ q : Row, s.rows.get? p = some q :=
    ⟨_, List.get?_eq_get hp⟩
  obtain ⟨r, hr, hr2⟩ := jsIndex_valid (clearAllMarks s.rows) s.selectedIndex
    h0 (by rw [clearAllMarks_length]; exact h1)
  have hrow : (markSingle s).rows.get? p =
      some (if p = s.selectedIndex.toNat
        then (⟨true, true, q.selectedVis⟩ : Row)
        else (⟨false, false, q.selectedVis⟩ : Row)) := by
    unfold markSingle
    rw [toggleMark_valid _ _ r h0 hr2]
    show (updAt (clearAllMarks s.rows) s.selectedIndex.toNat flipRow).get? p =
      _
    rw [updAt_get?, clearAllMarks_get?, hq]
    show some (if p = s.selectedIndex.toNat
        then flipRow (unmarkRow q) else unmarkRow q) = _
    by_cases he : p = s.selectedIndex.toNat
    · rw [if_pos he, if_pos he]
      rfl
    · rw [if_neg he, if_neg he]
      rfl
  rw [hrow]
  have hiff : (p = s.selectedIndex.toNat) ↔ ((p : Int) = s.selectedIndex) := by
    omega
  by_cases he : (p : Int) = s.selectedIndex
  · rw [if_pos (hiff.mpr he)]
    simp [he]
  · rw [if_neg (fun hh => he (hiff.mp hh))]
    simp [he]

theorem C6_witness :
    ((markSingle ⟨[⟨true, true, false⟩, ⟨false, false, false⟩], 1, 0⟩).rows.get?
        0).map Row.marked = some false ∧
    ((markSingle ⟨[⟨true, true, false⟩, ⟨false, false, false⟩], 1, 0⟩).rows.get?
        1).map Row.marked = some true :=
  ⟨(C6_single_exclusive _ (by decide) (by decide) 0 (by decide)).1,
   (C6_single_exclusive _ (by decide) (by decide) 1 (by decide)).1⟩

/-- C7: `mark(toggle)` on the selected row R (present, with flag and visual
state in sync as every reachable row is) flips the marked flag and marked
visual state, leaves every other row entirely unchanged, and afterwards the
anchor is the index of R when R became marked and -1 when R became unmarked. -/
theorem C7_toggle_independence (s : NavState) (r : Row)
    (h0 : 0 ≤ s.selectedIndex)
    (hr : s.rows.get? s.selectedIndex.toNat = some r)
    (hsync : r.markedVis = r.marked) :
    (toggleMark s s.selectedIndex).rows.get? s.selectedIndex.toNat =
      some ⟨!r.marked, !r.markedVis, r.selectedVis⟩ ∧
    (∀ p : Nat, p ≠ s.selectedIndex.toNat →
      (toggleMark s s.selectedIndex).rows.get? p = s.rows.get? p) ∧
    (toggleMark s s.selectedIndex).selectedIndex = s.selectedIndex ∧
    (toggleMark s s.selectedIndex).lastMarkedIndex =
      (if r.marked then -1 else s.selectedIndex) := by
  rw [toggleMark_valid s s.selectedIndex r h0 hr]
  refine ⟨?_, ?_, rfl, ?_⟩
  · show (updAt s.rows s.selectedIndex.toNat flipRow).get?
      s.selectedIndex.toNat = _
    rw [updAt_get?, hr]
    show some (if s.selectedIndex.toNat = s.selectedIndex.toNat
      then flipRow r else r) = _
    rw [if_pos rfl]
    show some (⟨!r.marked, !r.marked, r.selectedVis⟩ : Row) =
      some (⟨!r.marked, !r.markedVis, r.selectedVis⟩ : Row)
    rw [hsync]
  · intro p hp
    show (updAt s.rows s.selectedIndex.toNat flipRow).get? p = s.rows.get? p
    rw [updAt_get?]
    cases s.rows.get? p with
    | none => rfl
    | some q =>
        show some (if p = s.selectedIndex.toNat then flipRow q else q) =
          some q
        rw [if_neg hp]
  · show (if r.marked then (-1 : Int) else (s.selectedIndex.toNat : Int)) = _
    by_cases hm : r.marked = true
    · rw [if_pos hm, if_pos hm]
    · rw [if_neg hm, if_neg hm]
      omega

theorem C7_witness :
    (toggleMark ⟨[⟨false, false, false⟩, ⟨true, true, false⟩], 1, -1⟩
        (1 : Int)).rows.get? 1 = some ⟨false, false, false⟩ ∧
    (toggleMark ⟨[⟨false, false, false⟩, ⟨true, true, false⟩], 1, -1⟩
        (1 : Int)).rows.get? 0 = some ⟨false, false, false⟩ ∧
    (toggleMark ⟨[⟨false, false, false⟩, ⟨true, true, false⟩], 1, -1⟩
        (1 : Int)).lastMarkedIndex = -1 := by
  have h := C7_toggle_independence
    ⟨[⟨false, false, false⟩, ⟨true, true, false⟩], 1, -1⟩
    ⟨true, true, false⟩ (by decide) (by decide) (by decide)
  exact ⟨h.1, h.2.1 0 (by decide), h.2.2.2⟩

/-- C9: with no anchor present (`lastMarkedIndex = -1`), `mark(range)`
produces exactly the state `mark(toggle)` on the selected row produces: the
same rows (marked flags and both visual states) and the same indices. -/
theorem C9_range_degenerates_to_toggle (s : NavState)
    (h : s.lastMarkedIndex = -1) :
    markRange s = some (toggleMark s s.selectedIndex) :=
  markRange_noAnchor s h

theorem C9_witness :
    markRange ⟨[⟨false, false, false⟩, ⟨true, true, false⟩], 0, -1⟩ =
      some (toggleMark ⟨[⟨false, false, false⟩, ⟨true, true, false⟩], 0, -1⟩
        (0 : Int)) :=
  C9_range_degenerates_to_toggle
    ⟨[⟨false, false, false⟩, ⟨true, true, false⟩], 0, -1⟩ rfl

/-- C10: after `mark(single)` on a valid selected row the anchor
`lastMarkedIndex` equals `selectedIndex`: the clear pass does not touch the
anchor and the toggle that follows runs on a just-cleared row, so it marks
it and records its index as the anchor. -/
theorem C10_single_sets_anchor (s : NavState)
    (h0 : 0 ≤ s.selectedIndex) (h1 : s.selectedIndex < s.rows.length) :
    (markSingle s).lastMarkedIndex = s.selectedIndex := by
  obtain ⟨r, hr, hr2⟩ := jsIndex_valid (clearAllMarks s.rows) s.selectedIndex
    h0 (by rw [clearAllMarks_length]; exact h1)
  have hmarked : r.marked = false := by
    rw [clearAllMarks_get?] at hr2
    cases hq : s.rows.get? s.selectedIndex.toNat with
    | none => rw [hq] at hr2; exact Option.noConfusion hr2
    | some r0 =>
        rw [hq] at hr2
        have h3 := Option.some.inj hr2
        rw [← h3]
        rfl
  unfold markSingle
  rw [toggleMark_valid _ _ r h0 hr2]
  show (if r.marked then (-1 : Int) else (s.selectedIndex.toNat : Int)) =
    s.selectedIndex
  rw [hmarked]
  show (s.selectedIndex.toNat : Int) = s.selectedIndex
  omega

theorem C10_witness :
    (markSingle ⟨[⟨true, true, false⟩, ⟨false, false, false⟩],
      1, -1⟩).lastMarkedIndex = 1 :=
  C10_single_sets_anchor ⟨[⟨true, true, false⟩, ⟨false, false, false⟩], 1, -1⟩
    (by decide) (by decide)

/-- C1: with an anchor `a` present (by the data model an anchor is a valid
row index, so `0 ≤ a`) and the selected row existing at index `b`,
`mark(range)` succeeds (no exception), sets marked flag and marked visual
state to true on every row whose position lies in the closed interval
`[min(a,b), max(a,b)]`, leaves every row outside that interval entirely
unchanged — in particular it never unmarks a row — and sets the anchor to
`b`. -/
theorem C1_markRange_closedInterval (s : NavState) (a b : Int)
    (hanchor : s.lastMarkedIndex = a) (ha : 0 ≤ a)
    (hsel : s.selectedIndex = b) (hb0 : 0 ≤ b) (hb : b < s.rows.length) :
    (markRange s).map NavState.lastMarkedIndex = some b ∧
    (markRange s).map NavState.selectedIndex = some b ∧
    (markRange s).map (fun s2 => s2.rows.length) = some s.rows.length ∧
    ∀ p : Nat, (markRange s).map (fun s2 => s2.rows.get? p) =
      some (if min a b ≤ (p : Int) ∧ (p : Int) ≤ max a b
        then (s.rows.get? p).map markRow else s.rows.get? p) := by
  have hne : s.lastMarkedIndex ≠ -1 := by omega
  have hv := markRange_valid s hne (by omega) (by omega)
  rw [hv]
  refine ⟨?_, ?_, ?_, ?_⟩
  · show some ((s.selectedIndex.toNat : Nat) : Int) = some b
    have hc : ((s.selectedIndex.toNat : Nat) : Int) = b := by omega
    rw [hc]
  · show some s.selectedIndex = some b
    rw [hsel]
  · show some (rangeMarkRows s.rows s.lastMarkedIndex
      ((s.selectedIndex.toNat : Nat) : Int)).length = some s.rows.length
    rw [rangeMarkRows_length]
  · intro p
    show some ((rangeMarkRows s.rows s.lastMarkedIndex
      ((s.selectedIndex.toNat : Nat) : Int)).get? p) = _
    rw [rangeMarkRows_get? s.rows s.lastMarkedIndex _ p (by omega) (by omega)
      (by omega)]
    refine congrArg some ?_
    by_cases hcond : min a b ≤ (p : Int) ∧ (p : Int) ≤ max a b
    · rw [if_pos hcond]
      cases hq : s.rows.get? p with
      | none => rfl
      | some q =>
          show some (if min s.lastMarkedIndex
                ((s.selectedIndex.toNat : Nat) : Int) ≤ (p : Int) ∧
              (p : Int) ≤ max s.lastMarkedIndex
                ((s.selectedIndex.toNat : Nat) : Int)
            then markRow q else q) = some (markRow q)
          rw [if_pos (by omega)]
    · rw [if_neg hcond]
      cases hq : s.rows.get? p with
      | none => rfl
      | some q =>
          show some (if min s.lastMarkedIndex
                ((s.selectedIndex.toNat : Nat) : Int) ≤ (p : Int) ∧
              (p : Int) ≤ max s.lastMarkedIndex
                ((s.selectedIndex.toNat : Nat) : Int)
            then markRow q else q) = some q
          rw [if_neg (by omega)]

theorem C1_witness :
    (markRange ⟨[⟨false, false, false⟩, ⟨false, false, false⟩,
        ⟨false, false, false⟩, ⟨false, false, false⟩], 1, 2⟩).map
      NavState.lastMarkedIndex = some 1 ∧
    (markRange ⟨[⟨false, false, false⟩, ⟨false, false, false⟩,
        ⟨false, false, false⟩, ⟨false, false, false⟩], 1, 2⟩).map
      (fun s2 => s2.rows.get? 2) = some (some ⟨true, true, false⟩) ∧
    (markRange ⟨[⟨false, false, false⟩, ⟨false, false, false⟩,
        ⟨false, false, false⟩, ⟨false, false, false⟩], 1, 2⟩).map
      (fun s2 => s2.rows.get? 0) = some (some ⟨false, false, false⟩) := by
  have h := C1_markRange_closedInterval
    ⟨[⟨false, false, false⟩, ⟨false, false, false⟩, ⟨false, false, false⟩,
      ⟨false, false, false⟩], 1, 2⟩ 2 1 rfl (by decide) rfl (by decide)
    (by decide)
  exact ⟨h.1, h.2.2.2 2, h.2.2.2 0⟩

/-- C2 counterexample: with `selectedIndex = 5` pointing outside a one-row
table, `mark(single)` is not a no-op — it clears the marked row — and
`mark(range)` with an anchor present raises (modelled as `none`) instead of
silently doing nothing. -/
theorem C2_counterexample :
    handleMarking ⟨[⟨true, true, false⟩], 5, -1⟩ false false ≠
      some ⟨[⟨true, true, false⟩], 5, -1⟩ ∧
    handleMarking ⟨[⟨false, false, false⟩], 5, 0⟩ true false = none := by
  decide

/-- C2 amended: with `selectedIndex` outside the row range, `mark(toggle)`
is a silent no-op, and so is `mark(range)` when no anchor is present;
`mark(single)` raises no error and leaves the indices alone but clears
the marked flag and marked visual state of every row (its clear pass runs before
the undefined-row guard of the toggle step); `mark(range)` with an anchor
present throws a TypeError dereferencing the missing row, mutating
nothing. -/
theorem C2_invalid_index (s : NavState)
    (h : s.selectedIndex < 0 ∨ (s.rows.length : Int) ≤ s.selectedIndex) :
    handleMarking s false true = some s ∧
    (s.lastMarkedIndex = -1 → ∀ c : Bool, handleMarking s true c = some s) ∧
    (s.lastMarkedIndex ≠ -1 → ∀ c : Bool, handleMarking s true c = none) ∧
    handleMarking s false false =
      some { s with rows := clearAllMarks s.rows } := by
  have htoggle : toggleMark s s.selectedIndex = s := toggleMark_invalid s _ h
  refine ⟨?_, ?_, ?_, ?_⟩
  · show some (toggleMark s s.selectedIndex) = some s
    rw [htoggle]
  · intro hanchor c
    show markRange s = some s
    rw [markRange_noAnchor s hanchor, htoggle]
  · intro hanchor c
    show markRange s = none
    exact markRange_throw s hanchor h
  · have h2 : s.selectedIndex < 0 ∨
        ((clearAllMarks s.rows).length : Int) ≤ s.selectedIndex := by
      rw [clearAllMarks_length]
      exact h
    show some (markSingle s) = some { s with rows := clearAllMarks s.rows }
    unfold markSingle
    rw [toggleMark_invalid _ _ h2]

theorem C2_witness :
    ((5 : Int) < 0 ∨ (((1 : Nat) : Int) ≤ 5)) ∧
    handleMarking ⟨[⟨true, true, false⟩], 5, -1⟩ false true =
      some ⟨[⟨true, true, false⟩], 5, -1⟩ ∧
    handleMarking ⟨[⟨true, true, false⟩], 5, -1⟩ false false =
      some ⟨[⟨false, false, false⟩], 5, -1⟩ :=
  ⟨Or.inr (by decide),
   (C2_invalid_index ⟨[⟨true, true, false⟩], 5, -1⟩ (Or.inr (by decide))).1,
   (C2_invalid_index ⟨[⟨true, true, false⟩], 5, -1⟩
     (Or.inr (by decide))).2.2.2⟩

/-- C3 counterexample: on a zero-row table a navigate(down) call is not a
no-op — it changes `selectedIndex` from 0 to -1. -/
theorem C3_counterexample :
    handleNavigation (initNav 0) NavKey.down ≠ initNav 0 ∧
    (handleNavigation (initNav 0) NavKey.down).selectedIndex = -1 ∧
    (initNav 0).selectedIndex = 0 := by
  decide

/-- C3 amended: constructed on a zero-row table the controller has no rows
(hence no selected visual state anywhere), anchor -1 and selected index 0;
every subsequent mark call returns the state unchanged without raising, and
every navigate call keeps the rows empty and the anchor -1 and raises
nothing, but it writes `selectedIndex`: up yields 0 and down yields -1, so
the index stays within {0, -1} instead of staying untouched. -/
theorem C3_empty_table (s : NavState) (hrows : s.rows = [])
    (hanchor : s.lastMarkedIndex = -1)
    (hsel : s.selectedIndex = 0 ∨ s.selectedIndex = -1) :
    ((initNav 0).rows = [] ∧ (initNav 0).selectedIndex = 0 ∧
      (initNav 0).lastMarkedIndex = -1) ∧
    (∀ sh c : Bool, handleMarking s sh c = some s) ∧
    ∀ k : NavKey,
      (handleNavigation s k).rows = [] ∧
      (handleNavigation s k).lastMarkedIndex = -1 ∧
      (handleNavigation s k).selectedIndex =
        (match k with | NavKey.up => 0 | NavKey.down => -1) :=
  ⟨⟨rfl, rfl, rfl⟩, fun sh c => handleMarking_empty s hrows hanchor sh c,
   fun k => handleNavigation_empty s hrows hanchor hsel k⟩

theorem C3_witness :
    handleMarking ⟨[], 0, -1⟩ false false = some ⟨[], 0, -1⟩ ∧
    (handleNavigation ⟨[], 0, -1⟩ NavKey.down).selectedIndex = -1 :=
  ⟨(C3_empty_table ⟨[], 0, -1⟩ rfl rfl (Or.inl rfl)).2.1 false false,
   ((C3_empty_table ⟨[], 0, -1⟩ rfl rfl (Or.inl rfl)).2.2 NavKey.down).2.2⟩

/-- C4: in every state reachable from construction through keyboard events
and clicks (a click resolving to a managed row, whose recorded index is
below the row count), the selected visual state sits on exactly the row at
`selectedIndex`: on a nonempty table `selectedIndex` is a valid index and
its row is the unique carrier of the selected visual state, and on an empty
table no row carries it. -/
theorem C4_exclusive_selection (n : Nat) (s : NavState) (h : Reachable n s) :
    (∀ p : Nat, p < s.rows.length →
      ((s.rows.get? p).map Row.selectedVis = some true ↔
        (p : Int) = s.selectedIndex)) ∧
    (0 < s.rows.length → 0 ≤ s.selectedIndex ∧
      s.selectedIndex < s.rows.length) :=
  reachable_ok n s h

theorem C4_witness :
    ((initNav 2).rows.get? 0).map Row.selectedVis = some true ∧
    (0 : Int) ≤ (initNav 2).selectedIndex := by
  have h := C4_exclusive_selection 2 (initNav 2) Reachable.init
  exact ⟨(h.1 0 (by decide)).mpr (by decide), (h.2 (by decide)).1⟩

/-- C8 counterexample: a space key press with only the command/meta modifier
held invokes single mode, not toggle mode: on a state whose second row is
marked it runs `markSingle` (clearing the mark of that row), which differs from
what toggle mode produces. -/
theorem C8_counterexample :
    handleKeyDown ⟨[⟨false, false, true⟩, ⟨true, true, false⟩], 0, -1⟩
        KBKey.space false false true =
      some (markSingle ⟨[⟨false, false, true⟩, ⟨true, true, false⟩],
        0, -1⟩) ∧
    handleKeyDown ⟨[⟨false, false, true⟩, ⟨true, true, false⟩], 0, -1⟩
        KBKey.space false false true ≠
      applyMark ⟨[⟨false, false, true⟩, ⟨true, true, false⟩], 0, -1⟩
        MarkMode.toggle := by
  decide

/-- C8 amended: the mark mode is range when shift is held, else toggle when
ctrl is held, else single.  A click passes `ctrlKey || metaKey`, so clicks
treat command/meta like ctrl; but the space-key path passes only `ctrlKey`,
ignoring the meta modifier entirely — a space press with only command/meta
held therefore invokes single mode, not toggle mode. -/
theorem C8_mode_dispatch (s : NavState) (i : Nat) (sh c m : Bool) :
    handleMarking s sh c = applyMark s (modeOf sh c) ∧
    handleKeyDown s KBKey.space sh c m = applyMark s (modeOf sh c) ∧
    handleClick s (some i) sh c m =
      applyMark (updateNavigation { s with selectedIndex := (i : Int) })
        (modeOf sh (c || m)) ∧
    handleKeyDown s KBKey.space false false true =
      applyMark s MarkMode.single := by
  refine ⟨handleMarking_eq_applyMark s sh c, ?_, ?_, ?_⟩
  · show handleMarking s sh c = applyMark s (modeOf sh c)
    exact handleMarking_eq_applyMark s sh c
  · show handleMarking (updateNavigation { s with selectedIndex := (i : Int) })
      sh (c || m) = _
    exact handleMarking_eq_applyMark _ sh (c || m)
  · show handleMarking s false false = applyMark s MarkMode.single
    exact handleMarking_eq_applyMark s false false

end TableNav
